import Mathlib

set_option maxHeartbeats 1000000

/-!
Verification development for the SpineToVideo export core: a shallow
embedding of the offscreen render/encode pipeline (`OffscreenRenderer`,
`ExportManager`), the batch orchestrator (`processExportWithOffscreen`)
and the background-color handling of `SpineRenderer`, together with
theorems about the embedded definitions.

Conventions of the embedding:
* Machine floats are modelled as `ℚ`; a JavaScript `NaN` produced by a
  failed `parseInt` is modelled as `Option` with `none` for NaN.
* The latched `AbortSignal` is modelled by `cancelAt : Option ℕ`: the
  index of the first cooperative checkpoint at which reading the flag
  yields `true` (`none` = the signal is never set).  Checkpoint 0 is the
  initial check in `renderToVideo` (and the pre-admission check of
  `ExportManager.processQueue`, which reads the same latched flag in the
  same synchronous stretch), checkpoint 1 is the post-load check, and
  checkpoint `2 + i` is the check at the head of frame-loop iteration `i`.
* Fallible operations return `Except`; the encoded `Blob` payloads are
  abstracted to `Unit` (only control flow and trace structure matter).
-/

namespace SpineToVideoModel

unseal Rat.add Rat.mul Rat.inv Rat.sub

/-- Decidable equality for `Except`, needed so the embedded states and
results can be evaluated by `decide` on concrete inputs. -/
instance exceptDecEq {ε α : Type} [DecidableEq ε] [DecidableEq α] :
    DecidableEq (Except ε α)
  | Except.ok a, Except.ok b =>
    if h : a = b then Decidable.isTrue (by rw [h])
    else Decidable.isFalse (by intro hc; injection hc; contradiction)
  | Except.error a, Except.error b =>
    if h : a = b then Decidable.isTrue (by rw [h])
    else Decidable.isFalse (by intro hc; injection hc; contradiction)
  | Except.ok _, Except.error _ => Decidable.isFalse (by intro hc; injection hc)
  | Except.error _, Except.ok _ => Decidable.isFalse (by intro hc; injection hc)

/-- Output formats: `ExportFormat = VideoFormat | 'png-sequence' |
'jpg-sequence' | 'mp4-h264'` where the generic `VideoFormat`s used by the
UI are `'webm-vp9'` and `'webm-vp8'`. -/
inductive ExportFormat
  | pngSequence
  | jpgSequence
  | mp4H264
  | webmVp9
  | webmVp8
deriving DecidableEq

/-- `format === 'png-sequence' || format === 'jpg-sequence'`. -/
def isImageSequence : ExportFormat → Bool
  | .pngSequence => true
  | .jpgSequence => true
  | _ => false

/-- The errors thrown on the paths of `OffscreenRenderer.renderToVideo`:
`'AbortError'`, a load failure propagated from `renderer.load`, the
animation-not-in-asset message, and the WebCodecs-unsupported message. -/
inductive RError
  | abortError
  | assetLoadError
  | animationNotFoundError
  | unsupportedEncoder
deriving DecidableEq

/-- Observable calls issued by `renderToVideo`, in program order:
`renderer.updateAndRender(frameDelta)` (the single unit of simulated
time), `exporter.capture()`, `mp4Recorder.encodeFrame(ts)`, the
`setTimeout` pause of the generic recorder branch, backend
`start`/`stop`, and `renderer.stop()`. -/
inductive REv
  | advance (dt : ℚ)
  | capture
  | encodeFrame (tsUs : ℚ)
  | pause (ms : ℕ)
  | backendStart
  | backendStop
  | rendererStop
deriving DecidableEq

/-- One export unit (`OffscreenRenderTask`).  `cancelAt` embeds the
job's `abortSignal` as described in the file header. -/
structure OffscreenRenderTask where
  assetName : String
  animation : String
  width : ℕ
  height : ℕ
  fps : ℕ
  format : ExportFormat
  duration : Option ℚ
  backgroundColor : Option String
  cancelAt : Option ℕ
deriving DecidableEq

/-- Environment a task executes in: `isWebCodecsSupported()`, the result
of `renderer.load(files)` (the animation-name list, or a load failure),
and `renderer.totalTime` after `setAnimation` (the animation's intrinsic
duration). -/
structure RenderEnv where
  hwSupported : Bool
  loadResult : Except Unit (List String)
  intrinsicDuration : ℚ
deriving DecidableEq

/-- Reading the latched abort flag at cooperative checkpoint `k`. -/
def abortedAt (cancelAt : Option ℕ) (k : ℕ) : Bool :=
  match cancelAt with
  | none => false
  | some c => decide (c ≤ k)

/-- `const animDuration = this.renderer.totalTime || 2.0;
const recordDuration = (duration && duration > 0) ? duration : animDuration;`
(JS truthiness: an absent or zero `duration` is falsy; a zero
`totalTime` is falsy and falls back to `2.0`). -/
def resolveDuration (duration : Option ℚ) (totalTime : ℚ) : ℚ :=
  let animDuration := if totalTime = 0 then 2 else totalTime
  match duration with
  | none => animDuration
  | some d => if d ≠ 0 ∧ 0 < d then d else animDuration

/-- The body of frame-loop iteration `i` (after the cancellation check):
always `updateAndRender(frameDelta)`, then one `capture()` for the image
sequence exporter, one `encodeFrame((i * 1000000) / fps)` for the MP4
recorder, or a 10 ms `setTimeout` pause for the generic recorder. -/
def loopBody (fmt : ExportFormat) (fps : ℕ) (i : ℕ) : List REv :=
  if isImageSequence fmt then
    [REv.advance (1 / (fps : ℚ)), REv.capture]
  else if fmt = ExportFormat.mp4H264 then
    [REv.advance (1 / (fps : ℚ)), REv.encodeFrame (((i : ℚ) * 1000000) / (fps : ℚ))]
  else
    [REv.advance (1 / (fps : ℚ)), REv.pause 10]

/-- `for (let i = 0; i < totalFrames; i++) { if (abortSignal?.aborted) throw ...; body }`
with checkpoint numbering starting at `base` (`= 2` in `renderToVideo`).
Returns the emitted events and whether the loop aborted. -/
def frameLoop (body : ℕ → List REv) (cancelAt : Option ℕ) (base : ℕ) :
    ℕ → ℕ → List REv × Bool
  | _, 0 => ([], false)
  | i, n + 1 =>
    if abortedAt cancelAt (base + i) then ([], true)
    else
      let rest := frameLoop body cancelAt base (i + 1) n
      (body i ++ rest.1, rest.2)

/-- Result of one `renderToVideo` run: the event trace and the settled
outcome (`.ok ()` = the resolved Blob, `.error e` = the thrown error). -/
structure RenderResult where
  events : List REv
  result : Except RError Unit
deriving DecidableEq

/-- `OffscreenRenderer.renderToVideo`, translated statement by statement:
initial abort check (outside the `try`), `load`, animation-presence
check, post-load abort check, duration resolution,
`totalFrames = Math.ceil(recordDuration * fps)`, then the three-way
backend branch with the per-iteration abort check; every error raised
inside the `try` passes through the `catch` which calls
`this.renderer.stop()` before rethrowing, and the success path calls
`this.renderer.stop()` after the backend's `stop()`. -/
def renderToVideo (task : OffscreenRenderTask) (env : RenderEnv) : RenderResult :=
  if abortedAt task.cancelAt 0 then ⟨[], Except.error RError.abortError⟩
  else
    match env.loadResult with
    | Except.error _ => ⟨[REv.rendererStop], Except.error RError.assetLoadError⟩
    | Except.ok animations =>
      if task.animation ∈ animations then
        if abortedAt task.cancelAt 1 then
          ⟨[REv.rendererStop], Except.error RError.abortError⟩
        else
          let recordDuration := resolveDuration task.duration env.intrinsicDuration
          let totalFrames := (Int.ceil (recordDuration * (task.fps : ℚ))).toNat
          if isImageSequence task.format then
            let lp := frameLoop (loopBody task.format task.fps) task.cancelAt 2 0 totalFrames
            if lp.2 then
              ⟨REv.backendStart :: lp.1 ++ [REv.rendererStop], Except.error RError.abortError⟩
            else
              ⟨REv.backendStart :: lp.1 ++ [REv.backendStop, REv.rendererStop], Except.ok ()⟩
          else if task.format = ExportFormat.mp4H264 then
            if env.hwSupported = false then
              ⟨[REv.rendererStop], Except.error RError.unsupportedEncoder⟩
            else
              let lp := frameLoop (loopBody task.format task.fps) task.cancelAt 2 0 totalFrames
              if lp.2 then
                ⟨REv.backendStart :: lp.1 ++ [REv.rendererStop], Except.error RError.abortError⟩
              else
                ⟨REv.backendStart :: lp.1 ++ [REv.backendStop, REv.rendererStop], Except.ok ()⟩
          else
            let lp := frameLoop (loopBody task.format task.fps) task.cancelAt 2 0 totalFrames
            if lp.2 then
              ⟨REv.backendStart :: lp.1 ++ [REv.rendererStop], Except.error RError.abortError⟩
            else
              ⟨REv.backendStart :: lp.1 ++ [REv.backendStop, REv.rendererStop], Except.ok ()⟩
      else ⟨[REv.rendererStop], Except.error RError.animationNotFoundError⟩

/-- Frame-work events: simulated-time advances and capture calls. -/
def isFrameEv : REv → Bool
  | .advance _ => true
  | .capture => true
  | .encodeFrame _ => true
  | _ => false

/-- Calls received by the capture backend, one per captured frame
(`exporter.capture()` or `mp4Recorder.encodeFrame(ts)`). -/
def isCaptureCall : REv → Bool
  | .capture => true
  | .encodeFrame _ => true
  | _ => false

/-- The i-th capture call a discrete backend receives. -/
def capEvent (fmt : ExportFormat) (fps : ℕ) (i : ℕ) : REv :=
  if fmt = ExportFormat.mp4H264 then
    REv.encodeFrame (((i : ℚ) * 1000000) / (fps : ℚ))
  else REv.capture

/-- Simulated time at each capture call of a trace: fold the `advance`
increments and record the accumulated time at every capture. -/
def stGo : List REv → ℚ → List ℚ
  | [], _ => []
  | REv.advance d :: rest, t => stGo rest (t + d)
  | REv.capture :: rest, t => t :: stGo rest t
  | REv.encodeFrame _ :: rest, t => t :: stGo rest t
  | _ :: rest, t => stGo rest t

/-- Simulated timestamps at which the capture backend receives frames. -/
def simTimesOf (evs : List REv) : List ℚ := stGo evs 0

/-! ### ExportManager: the concurrency-bounded scheduler -/

/-- One entry of `ExportManager.queue`: a task paired with its pending
promise, identified by `jid`; `aid` is the id of the originating asset
(used by the orchestrator's callbacks). -/
structure QItem where
  jid : ℕ
  aid : ℕ
  task : OffscreenRenderTask
deriving DecidableEq

/-- The mutable state of an `ExportManager`: the pending FIFO `queue`,
the `activeRenderers` set (`running`, in admission order), and the
observable history: jobs rejected before start (`rejectedPre`), settled
jobs (`resolvedIds` / `rejectedRun`), disposed renderers (`disposedIds`)
and the number of `new OffscreenRenderer()` constructions. -/
structure MState where
  maxConcurrent : ℕ
  queue : List QItem
  running : List QItem
  rejectedPre : List ℕ
  resolvedIds : List ℕ
  rejectedRun : List (ℕ × RError)
  disposedIds : List ℕ
  constructed : ℕ
deriving DecidableEq

/-- A fresh `new ExportManager()`: `maxConcurrent = 2`, empty queue and
active set. -/
def initManager : MState :=
  ⟨2, [], [], [], [], [], [], 0⟩

/-- The fields `processQueue` touches. -/
structure PQRes where
  queue : List QItem
  running : List QItem
  rejectedPre : List ℕ
  constructed : ℕ
deriving DecidableEq

/-- The recursion of `ExportManager.processQueue` over the queue: return
at the concurrency cap or on an empty queue; shift the head; if its
abort signal is already set, reject it and recurse; otherwise construct
an `OffscreenRenderer`, add it to the active set and start the job. -/
def pqAux (maxC : ℕ) : List QItem → List QItem → List ℕ → ℕ → PQRes
  | [], running, rejected, constructed => ⟨[], running, rejected, constructed⟩
  | item :: rest, running, rejected, constructed =>
    if maxC ≤ running.length then ⟨item :: rest, running, rejected, constructed⟩
    else if abortedAt item.task.cancelAt 0 then
      pqAux maxC rest running (rejected ++ [item.jid]) constructed
    else ⟨rest, running ++ [item], rejected, constructed + 1⟩

/-- `ExportManager.processQueue` as a state transformer. -/
def processQueue (s : MState) : MState :=
  let r := pqAux s.maxConcurrent s.queue s.running s.rejectedPre s.constructed
  { s with queue := r.queue, running := r.running,
           rejectedPre := r.rejectedPre, constructed := r.constructed }

/-- `ExportManager.exportTask`: push the entry and immediately attempt
admission. -/
def exportTask (s : MState) (item : QItem) : MState :=
  processQueue { s with queue := s.queue ++ [item] }

/-- Submitting a batch of jobs one after another (each `exportTask` call
runs synchronously before the next submission). -/
def submitAll (s : MState) (items : List QItem) : MState :=
  items.foldl exportTask s

/-- Host-level collaborators shared by all jobs of a run:
`isWebCodecsSupported()`, `renderer.load` keyed by asset name, and the
intrinsic duration of each (asset, animation) pair. -/
structure Host where
  hwSupported : Bool
  loadAsset : String → Except Unit (List String)
  intrinsic : String → String → ℚ

/-- The environment `renderToVideo` sees for one task under a host. -/
def envFor (h : Host) (t : OffscreenRenderTask) : RenderEnv :=
  ⟨h.hwSupported, h.loadAsset t.assetName, h.intrinsic t.assetName t.animation⟩

/-- Settlement of the earliest active job: `renderToVideo` resolves or
rejects the entry's promise, then the `finally` block disposes the
renderer, removes it from the active set and re-invokes
`processQueue`. -/
def settleJob (h : Host) (s : MState) : MState :=
  match s.running with
  | [] => s
  | item :: rest =>
    let out := (renderToVideo item.task (envFor h item.task)).result
    processQueue
      { s with
        running := rest,
        resolvedIds := s.resolvedIds ++
          (match out with | Except.ok _ => [item.jid] | Except.error _ => []),
        rejectedRun := s.rejectedRun ++
          (match out with | Except.ok _ => [] | Except.error e => [(item.jid, e)]),
        disposedIds := s.disposedIds ++ [item.jid] }

/-- Settle active jobs repeatedly until the manager is quiescent (fuel
bounds the number of settlements). -/
def drainMgr (h : Host) : ℕ → MState → MState
  | 0, s => s
  | fuel + 1, s =>
    match s.running with
    | [] => s
    | _ :: _ => drainMgr h fuel (settleJob h s)

/-- `ExportManager.cancelAll()`: reject every still-queued entry with
`AbortError`, clear the queue, dispose every active renderer and clear
the active set. -/
def cancelAll (s : MState) : MState :=
  { s with
    queue := [],
    rejectedPre := s.rejectedPre ++ s.queue.map QItem.jid,
    disposedIds := s.disposedIds ++ s.running.map QItem.jid,
    running := [] }

/-- `ExportManager.getQueueLength()`: queued count plus active count. -/
def getQueueLength (s : MState) : ℕ :=
  s.queue.length + s.running.length

/-- States an `ExportManager` can reach from construction under any
interleaving of submissions, job settlements and `cancelAll` calls. -/
inductive Reach (h : Host) : MState → Prop
  | init : Reach h initManager
  | submit (s : MState) (item : QItem) : Reach h s → Reach h (exportTask s item)
  | settle (s : MState) : Reach h s → Reach h (settleJob h s)
  | cancel (s : MState) : Reach h s → Reach h (cancelAll s)

/-! ### processExportWithOffscreen: the batch export orchestrator

The orchestrator is modelled for runs whose run-level `abortSignal` is
never set (each `abortSignal?.aborted` read in `exportProcessor.ts`
yields `false` and the corresponding early-return branches vanish); the
cancellation paths are modelled separately by `cancelAt` in
`renderToVideo` and by the pre-admission check of `processQueue`. -/

/-- Per-asset status values passed to `onItemStatusChange`. -/
inductive ItemStatus
  | waiting
  | exporting
  | completed
  | failed
deriving DecidableEq

/-- Callback events the orchestrator emits, in order:
`onItemStatusChange(aid, st)`, `onProgress(current, total, _)`, and the
construction of an `OffscreenRenderer` for job `jid` inside
`ExportManager.processQueue` (job admission). -/
inductive OEv
  | status (aid : ℕ) (st : ItemStatus)
  | progress (current total : ℕ)
  | activated (jid : ℕ)
deriving DecidableEq

/-- One selected `AnimationItem` (its file bundle is keyed by name in
`Host.loadAsset`). -/
structure OrchItem where
  aid : ℕ
  name : String
deriving DecidableEq

/-- The `ExportConfig` fields the export path reads. -/
structure ExportConfig where
  width : ℕ
  height : ℕ
  fps : ℕ
  format : ExportFormat
  duration : Option ℚ
  backgroundColor : Option String
deriving DecidableEq

/-- The `OffscreenRenderTask` built for one (item, animation) pair in
the scan loop (`cancelAt := none`: non-cancelled run). -/
def mkTask (cfg : ExportConfig) (it : OrchItem) (anim : String) : OffscreenRenderTask :=
  { assetName := it.name, animation := anim, width := cfg.width,
    height := cfg.height, fps := cfg.fps, format := cfg.format,
    duration := cfg.duration, backgroundColor := cfg.backgroundColor,
    cancelAt := none }

/-- The scan phase: sequentially `load` every selected item on the
throwaway renderer; a success contributes one task per discovered
animation, a failure emits `onItemStatusChange(id, 'failed')` and
contributes nothing. -/
def scanPhase (h : Host) (cfg : ExportConfig) :
    List OrchItem → List OEv × List (ℕ × OffscreenRenderTask)
  | [] => ([], [])
  | it :: rest =>
    let r := scanPhase h cfg rest
    match h.loadAsset it.name with
    | Except.ok anims =>
      (r.1, anims.map (fun a => (it.aid, mkTask cfg it a)) ++ r.2)
    | Except.error _ => (OEv.status it.aid ItemStatus.failed :: r.1, r.2)

/-- Number the scanned tasks into scheduler entries. -/
def enumJobs (pairs : List (ℕ × OffscreenRenderTask)) : List QItem :=
  pairs.enum.map (fun p => ⟨p.1, p.2.1, p.2.2⟩)

/-- The synchronous prefix of each task's async callback in
`tasks.map(async ...)`: emit `onProgress(completed + 1, total, name)`
(with `completed` still 0) and `onItemStatusChange(id, 'exporting')`,
then call `exportManager.exportTask(task)`, whose `processQueue` may
admit a job (construct a renderer) before the callback suspends. -/
def submitPhase (total : ℕ) : List QItem → MState → List OEv → MState × List OEv
  | [], s, evs => (s, evs)
  | q :: rest, s, evs =>
    let s2 := exportTask s q
    let adm := (s2.running.drop s.running.length).map QItem.jid
    submitPhase total rest s2
      (evs ++ [OEv.progress 1 total, OEv.status q.aid ItemStatus.exporting] ++
        adm.map OEv.activated)

/-- File extension chosen for one task:
image sequences are zipped, `mp4-h264` is a direct `.mp4`, and the
generic formats take `.webm` when the format name starts with `webm`,
else `.mp4`. -/
def extOf : ExportFormat → String
  | ExportFormat.pngSequence => "zip"
  | ExportFormat.jpgSequence => "zip"
  | ExportFormat.mp4H264 => "mp4"
  | ExportFormat.webmVp9 => "webm"
  | ExportFormat.webmVp8 => "webm"

/-- Archive entry name: `` `${item.name}_${animation}.${ext}` ``. -/
def entryName (t : OffscreenRenderTask) : String :=
  t.assetName ++ "_" ++ t.animation ++ "." ++ extOf t.format

/-- Outcome of waiting for all submitted jobs to settle. -/
structure DrainRes where
  events : List OEv
  zipEntries : List String
  completedCount : ℕ
  mgr : MState
deriving DecidableEq

/-- Settle every submitted job: a success adds its blob to the batch ZIP
under `entryName` and bumps the progress counter; a failure emits
`onItemStatusChange(id, 'failed')` for the originating asset only. -/
def drainOrch (h : Host) (total : ℕ) :
    ℕ → MState → List OEv → List String → ℕ → DrainRes
  | 0, s, evs, zips, c => ⟨evs, zips, c, s⟩
  | fuel + 1, s, evs, zips, c =>
    match s.running with
    | [] => ⟨evs, zips, c, s⟩
    | item :: _ =>
      let out := (renderToVideo item.task (envFor h item.task)).result
      let s2 := settleJob h s
      match out with
      | Except.ok _ =>
        drainOrch h total fuel s2 (evs ++ [OEv.progress (c + 1) total])
          (zips ++ [entryName item.task]) (c + 1)
      | Except.error _ =>
        drainOrch h total fuel s2
          (evs ++ [OEv.status item.aid ItemStatus.failed]) zips c

/-- Result of a whole `processExportWithOffscreen` run. -/
structure OrchResult where
  events : List OEv
  zipEntries : List String
  completedCount : ℕ
  archiveSaved : Bool
deriving DecidableEq

/-- `processExportWithOffscreen` for a non-cancelled run: mark all
selected items `waiting`; scan; return 0 if no task was found; emit the
initial progress event; submit every task (the scheduler cap provides
backpressure); await all settlements; package the ZIP when at least one
job completed; finally mark every selected item `completed`. -/
def processExportWithOffscreen (h : Host) (items : List OrchItem)
    (cfg : ExportConfig) : OrchResult :=
  let waitEvs := items.map (fun it => OEv.status it.aid ItemStatus.waiting)
  let scan := scanPhase h cfg items
  let jobs := enumJobs scan.2
  let total := jobs.length
  if total = 0 then ⟨waitEvs ++ scan.1, [], 0, false⟩
  else
    let sub := submitPhase total jobs initManager []
    let dr := drainOrch h total total sub.1 [] [] 0
    let packEvs :=
      if 0 < dr.completedCount then [OEv.progress dr.completedCount total] else []
    let finalEvs := items.map (fun it => OEv.status it.aid ItemStatus.completed)
    ⟨waitEvs ++ scan.1 ++ [OEv.progress 0 total] ++ sub.2 ++ dr.events ++
       packEvs ++ finalEvs,
     dr.zipEntries, dr.completedCount, decide (0 < dr.completedCount)⟩

/-- The status an asset is left with after a run: the last
`onItemStatusChange` event emitted for it. -/
def finalStatus (evs : List OEv) (aid : ℕ) : Option ItemStatus :=
  evs.foldl
    (fun acc e =>
      match e with
      | OEv.status a st => if a = aid then some st else acc
      | _ => acc)
    none

/-! ### SpineRenderer: background color and the clear-color path -/

/-- Value of one hex digit, as `parseInt` radix 16 accepts them. -/
def hexDigitVal (c : Char) : Option ℕ :=
  if '0' ≤ c ∧ c ≤ '9' then some (c.toNat - Char.toNat '0')
  else if 'a' ≤ c ∧ c ≤ 'f' then some (c.toNat - Char.toNat 'a' + 10)
  else if 'A' ≤ c ∧ c ≤ 'F' then some (c.toNat - Char.toNat 'A' + 10)
  else none

/-- Accumulate the longest hex-digit run (`parseInt` ignores everything
from the first non-digit on). -/
def parseHexRest : List Char → ℕ → ℕ
  | [], acc => acc
  | c :: rest, acc =>
    match hexDigitVal c with
    | none => acc
    | some v => parseHexRest rest (acc * 16 + v)

/-- Parse a hex-digit run; `none` (NaN) when the first character is not
a hex digit. -/
def parseHexDigits : List Char → Option ℕ
  | [] => none
  | c :: rest =>
    match hexDigitVal c with
    | none => none
    | some v => some (parseHexRest rest v)

/-- Whitespace skipped by `parseInt`. -/
def isJsSpace (c : Char) : Bool :=
  c = ' ' ∨ c = '\t' ∨ c = '\n' ∨ c = '\r'

/-- Radix-16 `parseInt` strips a leading `0x`/`0X`. -/
def stripHex0x : List Char → List Char
  | '0' :: 'x' :: rest => rest
  | '0' :: 'X' :: rest => rest
  | cs => cs

/-- JavaScript `parseInt(s, 16)`: skip leading whitespace, read an
optional sign, strip `0x`, then parse the longest hex-digit run;
`none` models the `NaN` result. -/
def jsParseIntHex (s : String) : Option ℤ :=
  let cs := s.data.dropWhile isJsSpace
  match cs with
  | '-' :: rest => (parseHexDigits (stripHex0x rest)).map (fun v => -(v : ℤ))
  | '+' :: rest => (parseHexDigits (stripHex0x rest)).map (fun v => (v : ℤ))
  | _ => (parseHexDigits (stripHex0x cs)).map (fun v => (v : ℤ))

/-- JavaScript `s.slice(a, b)` for `0 ≤ a ≤ b`. -/
def jsSlice (s : String) (a b : ℕ) : String :=
  String.mk ((s.data.drop a).take (b - a))

/-- The piece of `SpineRenderer` state the color path uses: `bgColor`,
a 4-component RGBA clear color whose entries may be NaN. -/
structure RState where
  bgColor : List (Option ℚ)
deriving DecidableEq

/-- `SpineRenderer.setBackgroundColor(hex)`: the `'transparent'`
sentinel stores a zero-alpha clear; otherwise three unvalidated
`parseInt(hex.slice(...), 16) / 255` components and an alpha taken from
digits 7-8 only when the string has exactly 9 characters. -/
def setBackgroundColor (st : RState) (hex : String) : RState :=
  if hex = "transparent" then { st with bgColor := [some 0, some 0, some 0, some 0] }
  else
    let r := (jsParseIntHex (jsSlice hex 1 3)).map (fun v => (v : ℚ) / 255)
    let g := (jsParseIntHex (jsSlice hex 3 5)).map (fun v => (v : ℚ) / 255)
    let b := (jsParseIntHex (jsSlice hex 5 7)).map (fun v => (v : ℚ) / 255)
    let a :=
      if hex.length = 9 then (jsParseIntHex (jsSlice hex 7 9)).map (fun v => (v : ℚ) / 255)
      else some 1
    { st with bgColor := [r, g, b, a] }

/-- WebGL calls of interest in `updateAndRender`. -/
inductive GlCall
  | clearColor (rgba : List (Option ℚ))
deriving DecidableEq

/-- The clear issued at the top of every `SpineRenderer.updateAndRender`
call: `gl.clearColor(bgColor[0], bgColor[1], bgColor[2], bgColor[3])`. -/
def updateAndRenderClear (st : RState) : GlCall :=
  GlCall.clearColor st.bgColor

/-- The claim-side reading of "has hex digit pairs at positions 1-6":
the string has characters at indices 1 through 6 and they are all hex
digits. -/
def hexPairsAt1to6 (s : String) : Bool :=
  ((s.data.drop 1).take 6).length = 6 && ((s.data.drop 1).take 6).all (fun c => (hexDigitVal c).isSome)

/-! ### Auxiliary observables and concrete instances used by the claims -/

/-- Simulated-time advances (`renderer.updateAndRender(frameDelta)`). -/
def isAdvanceEv : REv → Bool
  | REv.advance _ => true
  | _ => false

/-- The canonical callback trace of the submission phase when `slots`
admission slots are free at its start: each job contributes its start
progress event and its `'exporting'` status event, followed by an
admission exactly while free slots remain. -/
def subTrace (total : ℕ) : ℕ → List QItem → List OEv
  | _, [] => []
  | slots, q :: rest =>
    [OEv.progress 1 total, OEv.status q.aid ItemStatus.exporting] ++
      (if 0 < slots then [OEv.activated q.jid] else []) ++
      subTrace total (slots - 1) rest

/-- A generic small task used by concrete scenarios. -/
def sampleTask (fmt : ExportFormat) (c : Option ℕ) : OffscreenRenderTask :=
  { assetName := "A", animation := "a", width := 8, height := 8, fps := 2,
    format := fmt, duration := some 1, backgroundColor := none, cancelAt := c }

/-- An environment in which loading succeeds with one animation. -/
def sampleEnv (hw : Bool) : RenderEnv :=
  ⟨hw, Except.ok ["a"], 1⟩

/-- A host on which every asset loads with the single animation `"a"`. -/
def sampleHost (hw : Bool) : Host :=
  ⟨hw, fun _ => Except.ok ["a"], fun _ _ => 1⟩

/-- A scheduler entry for `sampleTask`. -/
def sampleItem (j : ℕ) (fmt : ExportFormat) (c : Option ℕ) : QItem :=
  ⟨j, j, sampleTask fmt c⟩

/-- C4 scenario host: asset `"A"` loads with two animations, asset
`"B"`'s scan-phase load fails. -/
def c4Host : Host :=
  ⟨true, fun n => if n = "A" then Except.ok ["a1", "a2"] else Except.error (),
   fun _ _ => 1⟩

/-- C4 scenario selected items. -/
def c4ItemA : OrchItem := ⟨0, "A"⟩

/-- C4 scenario selected items. -/
def c4ItemB : OrchItem := ⟨1, "B"⟩

/-- C4 scenario export configuration. -/
def c4Cfg : ExportConfig :=
  { width := 8, height := 8, fps := 1, format := ExportFormat.pngSequence,
    duration := some 1, backgroundColor := none }

/-- C4 scenario run. -/
def c4Run : OrchResult := processExportWithOffscreen c4Host [c4ItemA, c4ItemB] c4Cfg

/-- A concrete manager state at the concurrency cap whose queue head is
already cancelled: two active jobs, queued jobs 9 (pre-cancelled) and
3. -/
def c6State : MState :=
  ⟨2,
   [sampleItem 9 ExportFormat.pngSequence (some 0),
    sampleItem 3 ExportFormat.pngSequence none],
   [sampleItem 1 ExportFormat.pngSequence none,
    sampleItem 2 ExportFormat.pngSequence none],
   [], [], [], [], 2⟩

/-! ### Lemmas about the scheduler -/

theorem pqAux_at_cap (maxC : ℕ) (q running : List QItem) (rej : List ℕ) (c : ℕ)
    (h : maxC ≤ running.length) :
    pqAux maxC q running rej c = ⟨q, running, rej, c⟩ := by
  cases q with
  | nil => rfl
  | cons a q => simp [pqAux, h]

theorem pqAux_running_le (maxC : ℕ) (q : List QItem) :
    ∀ (running : List QItem) (rej : List ℕ) (c : ℕ), running.length ≤ maxC →
      (pqAux maxC q running rej c).running.length ≤ maxC := by
  induction q with
  | nil => intro running rej c h; simpa [pqAux] using h
  | cons a q ih =>
    intro running rej c h
    by_cases hcap : maxC ≤ running.length
    · simpa [pqAux, hcap] using h
    · cases hab : abortedAt a.task.cancelAt 0 with
      | true => simpa [pqAux, hcap, hab] using ih running (rej ++ [a.jid]) c h
      | false =>
        have hlt : running.length < maxC := Nat.lt_of_not_le hcap
        simp [pqAux, hcap, hab]
        omega

theorem processQueue_maxConcurrent (s : MState) :
    (processQueue s).maxConcurrent = s.maxConcurrent := rfl

theorem processQueue_running_le (s : MState)
    (h : s.running.length ≤ s.maxConcurrent) :
    (processQueue s).running.length ≤ s.maxConcurrent :=
  pqAux_running_le _ _ _ _ _ h

theorem exportTask_maxConcurrent (s : MState) (item : QItem) :
    (exportTask s item).maxConcurrent = s.maxConcurrent := rfl

theorem settleJob_maxConcurrent (h : Host) (s : MState) :
    (settleJob h s).maxConcurrent = s.maxConcurrent := by
  unfold settleJob
  cases s.running <;> rfl

theorem exportTask_at_cap (s : MState) (item : QItem)
    (h : s.maxConcurrent ≤ s.running.length) :
    exportTask s item = { s with queue := s.queue ++ [item] } := by
  unfold exportTask processQueue
  rw [pqAux_at_cap _ _ _ _ _ h]

theorem exportTask_admit (s : MState) (item : QItem)
    (hq : s.queue = []) (hr : s.running.length < s.maxConcurrent)
    (hab : abortedAt item.task.cancelAt 0 = false) :
    exportTask s item =
      { s with queue := [], running := s.running ++ [item],
               constructed := s.constructed + 1 } := by
  unfold exportTask processQueue
  simp [hq, pqAux, Nat.not_le.mpr hr, hab]

theorem submitAll_at_cap (items : List QItem) :
    ∀ s : MState, s.maxConcurrent ≤ s.running.length →
      submitAll s items = { s with queue := s.queue ++ items } := by
  induction items with
  | nil => intro s h; simp [submitAll]
  | cons a items ih =>
    intro s h
    have step : submitAll s (a :: items) = submitAll (exportTask s a) items := by
      simp [submitAll]
    rw [step, exportTask_at_cap s a h, ih _ (by simpa using h)]
    simp

theorem reach_running_le (h : Host) (s : MState) (hs : Reach h s) :
    s.running.length ≤ s.maxConcurrent := by
  induction hs with
  | init => simp [initManager]
  | submit s item _ ih =>
    have := processQueue_running_le { s with queue := s.queue ++ [item] } (by simpa using ih)
    simpa [exportTask] using this
  | settle s _ ih =>
    rw [settleJob_maxConcurrent]
    unfold settleJob
    cases hrun : s.running with
    | nil => simp [hrun]
    | cons a rest =>
      simp only []
      have hrest : rest.length ≤ s.maxConcurrent := by
        rw [hrun] at ih; simp at ih; omega
      exact processQueue_running_le _ (by simpa using hrest)
  | cancel s _ ih => simp [cancelAll]

/-- C2: in every reachable scheduler state the active-renderer set is
bounded by `maxConcurrent` (2 for a fresh `ExportManager`), and
submitting `N > 2` non-pre-cancelled jobs to a fresh manager admits
exactly 2 immediately (exactly 2 renderers constructed), leaves `N - 2`
queued, and one job settling admits exactly one further queued job. -/
theorem c2_concurrency_cap (h : Host) :
    initManager.maxConcurrent = 2 ∧
    (∀ s : MState, Reach h s → s.running.length ≤ s.maxConcurrent) ∧
    (∀ items : List QItem, 2 < items.length →
      (∀ q ∈ items, abortedAt q.task.cancelAt 0 = false) →
      (submitAll initManager items).running.length = 2 ∧
      (submitAll initManager items).constructed = 2 ∧
      (submitAll initManager items).queue.length = items.length - 2 ∧
      (settleJob h (submitAll initManager items)).running.length = 2 ∧
      (settleJob h (submitAll initManager items)).constructed = 3 ∧
      (settleJob h (submitAll initManager items)).queue.length = items.length - 3) := by
  refine ⟨rfl, reach_running_le h, ?_⟩
  intro items hlen hna
  obtain ⟨a, b, r, rest, rfl⟩ : ∃ a b r rest, items = a :: b :: r :: rest := by
    cases items with
    | nil => simp at hlen
    | cons a t =>
      cases t with
      | nil => simp at hlen
      | cons b t2 =>
        cases t2 with
        | nil => simp at hlen
        | cons r rest => exact ⟨a, b, r, rest, rfl⟩
  have hA : abortedAt a.task.cancelAt 0 = false := hna a (by simp)
  have hB : abortedAt b.task.cancelAt 0 = false := hna b (by simp)
  have hR : abortedAt r.task.cancelAt 0 = false := hna r (by simp)
  have e1 : exportTask initManager a = ⟨2, [], [a], [], [], [], [], 1⟩ := by
    simp [exportTask, processQueue, pqAux, initManager, hA]
  have e2 : exportTask ⟨2, [], [a], [], [], [], [], 1⟩ b
      = ⟨2, [], [a, b], [], [], [], [], 2⟩ := by
    simp [exportTask, processQueue, pqAux, hB]
  have e3 : submitAll initManager (a :: b :: r :: rest)
      = ⟨2, r :: rest, [a, b], [], [], [], [], 2⟩ := by
    have step : submitAll initManager (a :: b :: r :: rest)
        = submitAll ⟨2, [], [a, b], [], [], [], [], 2⟩ (r :: rest) := by
      simp [submitAll, e1, e2]
    rw [step, submitAll_at_cap (r :: rest) _ (by simp)]
    rfl
  have key : (settleJob h ⟨2, r :: rest, [a, b], [], [], [], [], 2⟩).running.length = 2 ∧
      (settleJob h ⟨2, r :: rest, [a, b], [], [], [], [], 2⟩).constructed = 3 ∧
      (settleJob h ⟨2, r :: rest, [a, b], [], [], [], [], 2⟩).queue = rest := by
    cases hout : (renderToVideo a.task (envFor h a.task)).result with
    | ok v => simp [settleJob, hout, processQueue, pqAux, hR]
    | error e => simp [settleJob, hout, processQueue, pqAux, hR]
  refine ⟨by simp [e3], by simp [e3], by simp [e3]; try omega, ?_, ?_, ?_⟩
  · rw [e3]; exact key.1
  · rw [e3]; exact key.2.1
  · rw [e3]; rw [key.2.2]; simp

/-- Witness for C2 at a concrete 4-job batch. -/
theorem c2_witness :
    (submitAll initManager
        [sampleItem 1 ExportFormat.pngSequence none,
         sampleItem 2 ExportFormat.pngSequence none,
         sampleItem 3 ExportFormat.pngSequence none,
         sampleItem 4 ExportFormat.pngSequence none]).running.length = 2 :=
  ((c2_concurrency_cap (sampleHost true)).2.2
      [sampleItem 1 ExportFormat.pngSequence none,
       sampleItem 2 ExportFormat.pngSequence none,
       sampleItem 3 ExportFormat.pngSequence none,
       sampleItem 4 ExportFormat.pngSequence none]
      (by decide) (by decide)).1

/-- C6: a job whose cancellation token is already set when the
scheduler dequeues it is settled as cancelled (rejected) without any
`OffscreenRenderer` being constructed for it, and in the same
`processQueue` pass the next queued job is admitted, so the queue is
not stalled. -/
theorem c6_precancelled_skip (h : Host) (s : MState) (j k it0 : QItem)
    (rest0 : List QItem)
    (hq : s.queue = [j, k]) (hrun : s.running = it0 :: rest0)
    (hlen : s.running.length = s.maxConcurrent)
    (hj : abortedAt j.task.cancelAt 0 = true)
    (hk : abortedAt k.task.cancelAt 0 = false) :
    (settleJob h s).rejectedPre = s.rejectedPre ++ [j.jid] ∧
    (settleJob h s).running = rest0 ++ [k] ∧
    (settleJob h s).constructed = s.constructed + 1 ∧
    (settleJob h s).queue = [] ∧
    (settleJob h s).disposedIds = s.disposedIds ++ [it0.jid] := by
  have hm : s.maxConcurrent = rest0.length + 1 := by rw [← hlen, hrun]; simp
  have hcap : ¬ (rest0.length + 1 ≤ rest0.length) := by omega
  unfold settleJob
  simp only [hrun]
  simp [processQueue, pqAux, hq, hm, hj, hk, hcap]

/-- Witness for C6 at a concrete manager state. -/
theorem c6_witness :
    (settleJob (sampleHost true) c6State).constructed = c6State.constructed + 1 :=
  (c6_precancelled_skip (sampleHost true) c6State
      (sampleItem 9 ExportFormat.pngSequence (some 0))
      (sampleItem 3 ExportFormat.pngSequence none)
      (sampleItem 1 ExportFormat.pngSequence none)
      [sampleItem 2 ExportFormat.pngSequence none]
      rfl rfl rfl (by decide) (by decide)).2.2.1

/-- C7: `cancelAll()` rejects every still-queued job as cancelled,
empties the pending queue, clears (disposes) the active set, and leaves
`getQueueLength()` — queued count plus active count — at 0. -/
theorem c7_cancel_all (s : MState) :
    (cancelAll s).queue = [] ∧
    (cancelAll s).rejectedPre = s.rejectedPre ++ s.queue.map QItem.jid ∧
    (cancelAll s).running = [] ∧
    getQueueLength (cancelAll s) = 0 := by
  refine ⟨rfl, rfl, rfl, ?_⟩
  simp [getQueueLength, cancelAll]

/-! ### Lemmas about the frame loop -/

theorem frameLoop_none (body : ℕ → List REv) (base : ℕ) :
    ∀ (n i : ℕ), frameLoop body none base i n
      = ((List.range n).flatMap (fun k => body (i + k)), false) := by
  intro n
  induction n with
  | zero => intro i; simp [frameLoop]
  | succ n ih =>
    intro i
    simp only [frameLoop, abortedAt]
    rw [ih (i + 1), List.range_succ_eq_map]
    simp only [List.flatMap_cons, List.flatMap_map, Nat.add_zero, if_false]
    have hcg : ∀ k ∈ List.range n, body (i + 1 + k) = body (i + Nat.succ k) := by
      intro k _
      rw [show i + 1 + k = i + Nat.succ k by omega]
    rw [List.flatMap_congr hcg]
    simp

theorem frameLoop_cancel (body : ℕ → List REv) (base j : ℕ) :
    ∀ (n i : ℕ), i ≤ j → j < i + n →
      frameLoop body (some (base + j)) base i n
        = ((List.range (j - i)).flatMap (fun k => body (i + k)), true) := by
  intro n
  induction n with
  | zero => intro i h1 h2; omega
  | succ n ih =>
    intro i h1 h2
    by_cases hij : j ≤ i
    · have hii : i = j := le_antisymm h1 hij
      subst hii
      simp [frameLoop, abortedAt]
    · have hlt : i < j := Nat.lt_of_not_le hij
      have hab : abortedAt (some (base + j)) (base + i) = false := by
        simp only [abortedAt, decide_eq_false_iff_not]
        omega
      simp only [frameLoop, hab]
      rw [ih (i + 1) (by omega) (by omega)]
      have hsub : j - i = (j - (i + 1)) + 1 := by omega
      rw [hsub, List.range_succ_eq_map]
      simp only [List.flatMap_cons, List.flatMap_map, Nat.add_zero, Bool.false_eq_true,
        if_false]
      have hcg : ∀ k ∈ List.range (j - (i + 1)), body (i + 1 + k) = body (i + Nat.succ k) := by
        intro k _
        rw [show i + 1 + k = i + Nat.succ k by omega]
      rw [List.flatMap_congr hcg]

theorem loopBody_discrete (fmt : ExportFormat) (fps i : ℕ)
    (hfmt : isImageSequence fmt = true ∨ fmt = ExportFormat.mp4H264) :
    loopBody fmt fps i = [REv.advance (1 / (fps : ℚ)), capEvent fmt fps i] := by
  cases fmt <;> simp_all [loopBody, isImageSequence, capEvent]

theorem isFrameEv_capEvent (fmt : ExportFormat) (fps i : ℕ) :
    isFrameEv (capEvent fmt fps i) = true := by
  by_cases hm : fmt = ExportFormat.mp4H264 <;> simp [capEvent, hm, isFrameEv]

theorem isCaptureCall_capEvent (fmt : ExportFormat) (fps i : ℕ) :
    isCaptureCall (capEvent fmt fps i) = true := by
  by_cases hm : fmt = ExportFormat.mp4H264 <;> simp [capEvent, hm, isCaptureCall]

theorem flatMap_single {α β : Type} (l : List α) (f : α → β) :
    (l.flatMap fun a => [f a]) = l.map f := by
  induction l with
  | nil => rfl
  | cons a l ih => simp [ih]

theorem renderToVideo_noabort (task : OffscreenRenderTask) (env : RenderEnv)
    (anims : List String)
    (hc : task.cancelAt = none) (hl : env.loadResult = Except.ok anims)
    (ha : task.animation ∈ anims) (hhw : env.hwSupported = true) :
    renderToVideo task env =
      ⟨REv.backendStart ::
         ((List.range ((Int.ceil (resolveDuration task.duration env.intrinsicDuration * (task.fps : ℚ))).toNat)).flatMap
            (loopBody task.format task.fps)) ++ [REv.backendStop, REv.rendererStop],
       Except.ok ()⟩ := by
  by_cases h1 : isImageSequence task.format
  · simp [renderToVideo, hc, hl, ha, hhw, abortedAt, h1, frameLoop_none, Nat.zero_add]
  · by_cases h2 : task.format = ExportFormat.mp4H264
    · simp [renderToVideo, hc, hl, ha, hhw, abortedAt, h1, h2, frameLoop_none, Nat.zero_add]
    · simp [renderToVideo, hc, hl, ha, hhw, abortedAt, h1, h2, frameLoop_none, Nat.zero_add]

theorem renderToVideo_cancelled (task : OffscreenRenderTask) (env : RenderEnv)
    (anims : List String) (j : ℕ)
    (hc : task.cancelAt = some (2 + j)) (hl : env.loadResult = Except.ok anims)
    (ha : task.animation ∈ anims) (hhw : env.hwSupported = true)
    (hj : j < (Int.ceil (resolveDuration task.duration env.intrinsicDuration * (task.fps : ℚ))).toNat) :
    renderToVideo task env =
      ⟨REv.backendStart ::
         ((List.range j).flatMap (loopBody task.format task.fps)) ++ [REv.rendererStop],
       Except.error RError.abortError⟩ := by
  have h0 : abortedAt (some (2 + j)) 0 = false := by
    simp only [abortedAt, decide_eq_false_iff_not]; omega
  have h1 : abortedAt (some (2 + j)) 1 = false := by
    simp only [abortedAt, decide_eq_false_iff_not]; omega
  have hfl : ∀ bd : ℕ → List REv,
      frameLoop bd (some (2 + j)) 2 0
          ((Int.ceil (resolveDuration task.duration env.intrinsicDuration * (task.fps : ℚ))).toNat)
        = ((List.range j).flatMap bd, true) := by
    intro bd
    have hstep := frameLoop_cancel bd 2 j
      ((Int.ceil (resolveDuration task.duration env.intrinsicDuration * (task.fps : ℚ))).toNat) 0
      (Nat.zero_le j) (by omega)
    simpa using hstep
  by_cases hf1 : isImageSequence task.format
  · simp [renderToVideo, hc, hl, ha, hhw, h0, h1, hf1, hfl, Nat.sub_zero, Nat.zero_add]
  · by_cases hf2 : task.format = ExportFormat.mp4H264
    · simp [renderToVideo, hc, hl, ha, hhw, h0, h1, hf1, hf2, hfl, Nat.sub_zero, Nat.zero_add]
    · simp [renderToVideo, hc, hl, ha, hhw, h0, h1, hf1, hf2, hfl, Nat.sub_zero, Nat.zero_add]

theorem stGo_drop_tail (l2 : List REv) (h : ∀ t, stGo l2 t = []) :
    ∀ (l1 : List REv) (t : ℚ), stGo (l1 ++ l2) t = stGo l1 t := by
  intro l1
  induction l1 with
  | nil => intro t; simp [stGo, h t]
  | cons e rest ih => intro t; cases e <;> simp [stGo, ih]

theorem stGo_canonical (fmt : ExportFormat) (fps : ℕ) (d : ℚ) :
    ∀ (l : List ℕ) (t : ℚ),
      stGo (l.flatMap fun i => [REv.advance d, capEvent fmt fps i]) t
        = (List.range l.length).map (fun j : ℕ => t + ((j : ℚ) + 1) * d) := by
  intro l
  induction l with
  | nil => intro t; simp [stGo]
  | cons a l ih =>
    intro t
    have hstep :
        stGo ([REv.advance d, capEvent fmt fps a] ++
            (l.flatMap fun i => [REv.advance d, capEvent fmt fps i])) t
          = (t + d) :: stGo (l.flatMap fun i => [REv.advance d, capEvent fmt fps i]) (t + d) := by
      by_cases hm : fmt = ExportFormat.mp4H264 <;> simp [capEvent, hm, stGo]
    rw [List.flatMap_cons, hstep, ih (t + d), List.length_cons,
      List.range_succ_eq_map, List.map_cons, List.map_map]
    congr 1
    · push_cast; ring
    · apply List.map_congr_left
      intro j _
      simp only [Function.comp]
      push_cast
      ring

theorem processQueue_disposedIds (s : MState) :
    (processQueue s).disposedIds = s.disposedIds := rfl

theorem isFrameEv_advance (d : ℚ) : isFrameEv (REv.advance d) = true := rfl

theorem isFrameEv_backendStart : isFrameEv REv.backendStart = false := rfl

theorem isFrameEv_backendStop : isFrameEv REv.backendStop = false := rfl

theorem isFrameEv_rendererStop : isFrameEv REv.rendererStop = false := rfl

theorem isCaptureCall_advance (d : ℚ) : isCaptureCall (REv.advance d) = false := rfl

theorem isCaptureCall_backendStart : isCaptureCall REv.backendStart = false := rfl

theorem isCaptureCall_backendStop : isCaptureCall REv.backendStop = false := rfl

theorem isCaptureCall_rendererStop : isCaptureCall REv.rendererStop = false := rfl

theorem isAdvanceEv_backendStart : isAdvanceEv REv.backendStart = false := rfl

theorem isAdvanceEv_backendStop : isAdvanceEv REv.backendStop = false := rfl

theorem isAdvanceEv_rendererStop : isAdvanceEv REv.rendererStop = false := rfl

theorem stGo_backendStart (l : List REv) (t : ℚ) :
    stGo (REv.backendStart :: l) t = stGo l t := rfl

theorem filter_adv_body (fmt : ExportFormat) (fps i : ℕ) :
    (loopBody fmt fps i).filter isAdvanceEv = [REv.advance (1 / (fps : ℚ))] := by
  cases fmt <;> simp [loopBody, isImageSequence, isAdvanceEv]

theorem backendStop_not_mem_loopBody (fmt : ExportFormat) (fps i : ℕ) :
    REv.backendStop ∉ loopBody fmt fps i := by
  cases fmt <;> simp [loopBody, isImageSequence]

/-- C1 (amended): for every job using a discrete capture backend
(png-sequence, jpg-sequence, mp4-h264) under no cancellation, the frame
loop makes exactly `totalFrames = ceil(resolvedDuration × fps)`
iterations `i = 0 .. totalFrames-1`, each issuing exactly one
simulated-time advance of `1/fps` followed by exactly one capture call,
so the backend receives exactly `totalFrames` capture calls at strictly
increasing simulated times `(i+1)/fps`; the mp4-h264 backend's i-th
call carries the microsecond timestamp `i × 1_000_000 / fps`. -/
theorem c1_frame_timing (task : OffscreenRenderTask) (env : RenderEnv)
    (anims : List String) (N : ℕ)
    (hN : N = (Int.ceil (resolveDuration task.duration env.intrinsicDuration * (task.fps : ℚ))).toNat)
    (hfps : 0 < task.fps)
    (hc : task.cancelAt = none) (hl : env.loadResult = Except.ok anims)
    (ha : task.animation ∈ anims) (hhw : env.hwSupported = true)
    (hfmt : isImageSequence task.format = true ∨ task.format = ExportFormat.mp4H264) :
    (renderToVideo task env).result = Except.ok () ∧
    (renderToVideo task env).events.filter isFrameEv
      = (List.range N).flatMap
          (fun i => [REv.advance (1 / (task.fps : ℚ)), capEvent task.format task.fps i]) ∧
    (renderToVideo task env).events.filter isCaptureCall
      = (List.range N).map (capEvent task.format task.fps) ∧
    ((renderToVideo task env).events.filter isCaptureCall).length = N ∧
    simTimesOf (renderToVideo task env).events
      = (List.range N).map (fun i : ℕ => ((i : ℚ) + 1) * (1 / (task.fps : ℚ))) ∧
    (simTimesOf (renderToVideo task env).events).Pairwise (· < ·) ∧
    (task.format = ExportFormat.mp4H264 →
      (renderToVideo task env).events.filter isCaptureCall
        = (List.range N).map
            (fun i : ℕ => REv.encodeFrame (((i : ℚ) * 1000000) / (task.fps : ℚ)))) := by
  have hRV := renderToVideo_noabort task env anims hc hl ha hhw
  rw [← hN] at hRV
  have hres : (renderToVideo task env).result = Except.ok () := by rw [hRV]
  have hev : (renderToVideo task env).events
      = REv.backendStart ::
          ((List.range N).flatMap (loopBody task.format task.fps)) ++
          [REv.backendStop, REv.rendererStop] := by rw [hRV]
  have hb : ∀ i ∈ List.range N, loopBody task.format task.fps i
      = [REv.advance (1 / (task.fps : ℚ)), capEvent task.format task.fps i] :=
    fun i _ => loopBody_discrete _ _ _ hfmt
  rw [List.flatMap_congr hb] at hev
  have h2 : (renderToVideo task env).events.filter isFrameEv
      = (List.range N).flatMap
          (fun i => [REv.advance (1 / (task.fps : ℚ)), capEvent task.format task.fps i]) := by
    rw [hev]
    simp [List.filter_flatMap, isFrameEv_advance, isFrameEv_capEvent,
      isFrameEv_backendStart, isFrameEv_backendStop, isFrameEv_rendererStop]
  have h3 : (renderToVideo task env).events.filter isCaptureCall
      = (List.range N).map (capEvent task.format task.fps) := by
    rw [hev]
    simp [List.filter_flatMap, isCaptureCall_advance, isCaptureCall_capEvent,
      isCaptureCall_backendStart, isCaptureCall_backendStop, isCaptureCall_rendererStop,
      flatMap_single]
  have h5 : simTimesOf (renderToVideo task env).events
      = (List.range N).map (fun i : ℕ => ((i : ℚ) + 1) * (1 / (task.fps : ℚ))) := by
    rw [hev]
    show stGo _ 0 = _
    rw [List.cons_append, stGo_backendStart,
      stGo_drop_tail [REv.backendStop, REv.rendererStop] (fun t => rfl),
      stGo_canonical]
    simp
  have hd : (0 : ℚ) < 1 / (task.fps : ℚ) := by
    have : (0 : ℚ) < (task.fps : ℚ) := by exact_mod_cast hfps
    positivity
  have h6 : (simTimesOf (renderToVideo task env).events).Pairwise (· < ·) := by
    rw [h5]
    refine List.pairwise_map.mpr ?_
    refine (List.pairwise_lt_range N).imp ?_
    intro a b hab
    have hcast : ((a : ℚ) + 1) < ((b : ℚ) + 1) := by
      have : (a : ℚ) < (b : ℚ) := by exact_mod_cast hab
      linarith
    exact mul_lt_mul_of_pos_right hcast hd
  refine ⟨hres, h2, h3, by rw [h3]; simp, h5, h6, ?_⟩
  intro hm
  rw [h3]
  apply List.map_congr_left
  intro i _
  simp [capEvent, hm]

/-- C1 counterexample to the claim as stated: a generic-recorder
(webm-vp9) job whose `totalFrames` is 2 issues zero capture-backend
calls from its frame loop, yet completes successfully. -/
theorem c1_counterexample :
    ((renderToVideo (sampleTask ExportFormat.webmVp9 none) (sampleEnv true)).events.filter
        isCaptureCall).length = 0 ∧
    (Int.ceil (resolveDuration (sampleTask ExportFormat.webmVp9 none).duration
        (sampleEnv true).intrinsicDuration *
        ((sampleTask ExportFormat.webmVp9 none).fps : ℚ))).toNat = 2 ∧
    (renderToVideo (sampleTask ExportFormat.webmVp9 none) (sampleEnv true)).result
      = Except.ok () := by
  decide

/-- Witness for C1 at a concrete mp4-h264 job with fps 2 and duration
1 s (2 frames). -/
theorem c1_frame_timing_witness :
    ((renderToVideo (sampleTask ExportFormat.mp4H264 none) (sampleEnv true)).events.filter
        isCaptureCall).length = 2 :=
  (c1_frame_timing (sampleTask ExportFormat.mp4H264 none) (sampleEnv true) ["a"] 2
      (by decide) (by decide) rfl rfl (by decide) rfl (Or.inr rfl)).2.2.2.1

/-- C3 counterexample to the claim as stated: with the explicit
duration absent and an intrinsic duration of 0, the resolved duration
is the hard-coded 2.0 s fallback, not the intrinsic duration. -/
theorem c3_counterexample :
    resolveDuration none 0 = 2 ∧ resolveDuration none 0 ≠ 0 := by
  decide

/-- C3 (amended): a positive explicit duration is used as is; an
absent, zero or negative explicit duration resolves to the intrinsic
duration when that is nonzero, and to the 2.0-second fallback
(`totalTime || 2.0`) when the intrinsic duration is 0. -/
theorem c3_duration_resolution (d : Option ℚ) (t : ℚ) :
    (∀ x : ℚ, d = some x → 0 < x → resolveDuration d t = x) ∧
    ((d = none ∨ ∃ x, d = some x ∧ x ≤ 0) → t ≠ 0 → resolveDuration d t = t) ∧
    ((d = none ∨ ∃ x, d = some x ∧ x ≤ 0) → t = 0 → resolveDuration d t = 2) := by
  refine ⟨?_, ?_, ?_⟩
  · intro x hx hpos
    subst hx
    simp [resolveDuration, hpos, ne_of_gt hpos]
  · intro hd ht
    rcases hd with hd | ⟨x, hx, hle⟩
    · subst hd; simp [resolveDuration, ht]
    · subst hx
      have hno : ¬(x ≠ 0 ∧ 0 < x) := by
        rintro ⟨h1, h2⟩
        exact absurd h2 (not_lt.mpr hle)
      simp [resolveDuration, ht, hno]
  · intro hd ht
    subst ht
    rcases hd with hd | ⟨x, hx, hle⟩
    · subst hd; simp [resolveDuration]
    · subst hx
      have hno : ¬(x ≠ 0 ∧ 0 < x) := by
        rintro ⟨h1, h2⟩
        exact absurd h2 (not_lt.mpr hle)
      simp [resolveDuration, hno]

/-- Witness for C3 at a positive explicit duration. -/
theorem c3_witness : resolveDuration (some 3) 7 = 3 :=
  (c3_duration_resolution (some 3) 7).1 3 rfl (by norm_num)

/-- C5 (amended): a job cancelled at frame-loop iteration `j` performs
exactly `j` advance/capture iterations and none after the flag is
observed, fails with `AbortError`, and on that path `renderer.stop()`
is invoked and the manager's settlement still disposes the renderer —
but the capture backend's `stop()` is not invoked (it runs only on the
success path). -/
theorem c5_cancel_cleanup :
    (∀ (task : OffscreenRenderTask) (env : RenderEnv) (anims : List String) (j : ℕ),
      task.cancelAt = some (2 + j) →
      env.loadResult = Except.ok anims →
      task.animation ∈ anims →
      env.hwSupported = true →
      j < (Int.ceil (resolveDuration task.duration env.intrinsicDuration * (task.fps : ℚ))).toNat →
      (renderToVideo task env).events
        = REv.backendStart ::
            ((List.range j).flatMap (loopBody task.format task.fps)) ++ [REv.rendererStop] ∧
      (renderToVideo task env).result = Except.error RError.abortError ∧
      ((renderToVideo task env).events.filter isAdvanceEv).length = j ∧
      REv.backendStop ∉ (renderToVideo task env).events ∧
      REv.rendererStop ∈ (renderToVideo task env).events) ∧
    (∀ (h : Host) (s : MState) (item : QItem) (rest : List QItem),
      s.running = item :: rest → item.jid ∈ (settleJob h s).disposedIds) := by
  constructor
  · intro task env anims j hc hl ha hhw hj
    have hRV := renderToVideo_cancelled task env anims j hc hl ha hhw hj
    have hev : (renderToVideo task env).events
        = REv.backendStart ::
            ((List.range j).flatMap (loopBody task.format task.fps)) ++ [REv.rendererStop] := by
      rw [hRV]
    refine ⟨hev, by rw [hRV], ?_, ?_, ?_⟩
    · rw [hev]
      simp [List.filter_flatMap, isAdvanceEv, filter_adv_body, flatMap_single]
    · rw [hev]
      simp only [List.mem_cons, List.mem_append, List.mem_flatMap]
      push_neg
      exact ⟨⟨by simp, fun a _ => backendStop_not_mem_loopBody task.format task.fps a⟩,
        by simp, by simp⟩
    · rw [hev]
      simp
  · intro h s item rest hrun
    unfold settleJob
    rw [hrun]
    simp [processQueue_disposedIds]

/-- C5 counterexample to the claim as stated: a png-sequence job
cancelled mid-loop fails with `AbortError` but its capture backend's
`stop()` is never invoked (no `backendStop` event on the cancellation
path), refuting that backend stop runs on every exit path. -/
theorem c5_counterexample :
    (renderToVideo (sampleTask ExportFormat.pngSequence (some 3)) (sampleEnv true)).result
      = Except.error RError.abortError ∧
    REv.backendStop ∉
      (renderToVideo (sampleTask ExportFormat.pngSequence (some 3)) (sampleEnv true)).events ∧
    REv.rendererStop ∈
      (renderToVideo (sampleTask ExportFormat.pngSequence (some 3)) (sampleEnv true)).events := by
  decide

/-- Witness for C5 at a png-sequence job cancelled at iteration 1 of
2. -/
theorem c5_witness :
    ((renderToVideo (sampleTask ExportFormat.pngSequence (some 3)) (sampleEnv true)).events.filter
        isAdvanceEv).length = 1 :=
  (c5_cancel_cleanup.1 (sampleTask ExportFormat.pngSequence (some 3)) (sampleEnv true) ["a"] 1
      rfl rfl (by decide) rfl (by decide)).2.2.1

/-- C8: an mp4-h264 job on a host without WebCodecs support fails with
the unsupported-encoder error before any frame is rendered or encoded
(its whole trace is the `catch`-path `renderer.stop()`), and in a batch
containing such a job and an image-sequence sibling, only the mp4 job
is rejected: the sibling still completes, and both renderers are
disposed. -/
theorem c8_unsupported_encoder :
    (∀ (task : OffscreenRenderTask) (env : RenderEnv) (anims : List String),
      task.format = ExportFormat.mp4H264 →
      env.hwSupported = false →
      task.cancelAt = none →
      env.loadResult = Except.ok anims →
      task.animation ∈ anims →
      (renderToVideo task env).result = Except.error RError.unsupportedEncoder ∧
      (renderToVideo task env).events = [REv.rendererStop]) ∧
    ((drainMgr (sampleHost false) 2
        (exportTask (exportTask initManager (sampleItem 1 ExportFormat.mp4H264 none))
          (sampleItem 2 ExportFormat.pngSequence none))).rejectedRun
        = [(1, RError.unsupportedEncoder)] ∧
     (drainMgr (sampleHost false) 2
        (exportTask (exportTask initManager (sampleItem 1 ExportFormat.mp4H264 none))
          (sampleItem 2 ExportFormat.pngSequence none))).resolvedIds = [2] ∧
     (drainMgr (sampleHost false) 2
        (exportTask (exportTask initManager (sampleItem 1 ExportFormat.mp4H264 none))
          (sampleItem 2 ExportFormat.pngSequence none))).disposedIds = [1, 2]) := by
  constructor
  · intro task env anims hm hw hc hl ha
    constructor <;>
      simp [renderToVideo, hm, hw, hc, hl, ha, abortedAt, isImageSequence]
  · refine ⟨by decide, by decide, by decide⟩

/-- Witness for C8 at a concrete mp4-h264 task on a host without
hardware encoding. -/
theorem c8_witness :
    (renderToVideo (sampleTask ExportFormat.mp4H264 none) (sampleEnv false)).result
      = Except.error RError.unsupportedEncoder :=
  (c8_unsupported_encoder.1 (sampleTask ExportFormat.mp4H264 none) (sampleEnv false) ["a"]
      rfl rfl rfl rfl (by decide)).1

/-- C4: on the two-asset scenario (asset A, id 0, loads with 2
animations; asset B, id 1, scan-fails) the orchestrator does create and
complete exactly 2 successful jobs and the archive holds exactly their
2 entries, and the scan failure does emit `failed` for B — but the
final status pass then unconditionally marks every selected asset
`completed`, so B's final status is `completed`, not `failed`,
contradicting the claim (and the code's own comment at the final
pass). -/
theorem c4_scan_failure_statuses :
    c4Run.completedCount = 2 ∧
    c4Run.zipEntries = ["A_a1.zip", "A_a2.zip"] ∧
    OEv.status 1 ItemStatus.failed ∈ c4Run.events ∧
    finalStatus c4Run.events 0 = some ItemStatus.completed ∧
    finalStatus c4Run.events 1 = some ItemStatus.completed ∧
    finalStatus c4Run.events 1 ≠ some ItemStatus.failed := by
  refine ⟨by decide, by decide, by decide, by decide, by decide, by decide⟩

/-- C9 counterexample to the claim as stated: `"#1g2233"` has no hex
digit pair at positions 1-2, yet `parseInt` prefix-parsing produces
numbers for all three slices, so no NaN component is stored. -/
theorem c9_counterexample :
    hexPairsAt1to6 ("#1g2233") = false ∧
    ("#1g2233" : String) ≠ "transparent" ∧
    (setBackgroundColor ⟨[some 0, some 1, some 0, some 1]⟩ ("#1g2233")).bgColor
      = [some (1 / 255), some (34 / 255), some (51 / 255), some 1] ∧
    (∀ c ∈ (setBackgroundColor ⟨[some 0, some 1, some 0, some 1]⟩ ("#1g2233")).bgColor,
      c ≠ none) := by
  refine ⟨by decide, by decide, by decide, by decide⟩

/-- C9 (amended): for every string other than `'transparent'` for
which at least one of the three 2-character slices at positions 1-3,
3-5, 5-7 parses to NaN under `parseInt(·, 16)` (no leading hex digit —
e.g. `"#123"`, `"red"`, `""`), `setBackgroundColor` performs no
validation and raises no error: it stores a 4-component color with at
least one NaN component, and `updateAndRender` feeds exactly that
stored color to the WebGL clear color on every subsequent frame. -/
theorem c9_nan_color (st : RState) (hex : String)
    (hne : hex ≠ "transparent")
    (hnan : jsParseIntHex (jsSlice hex 1 3) = none ∨
            jsParseIntHex (jsSlice hex 3 5) = none ∨
            jsParseIntHex (jsSlice hex 5 7) = none) :
    (setBackgroundColor st hex).bgColor.length = 4 ∧
    (∃ c ∈ (setBackgroundColor st hex).bgColor, c = none) ∧
    updateAndRenderClear (setBackgroundColor st hex)
      = GlCall.clearColor (setBackgroundColor st hex).bgColor := by
  have hbg : (setBackgroundColor st hex).bgColor
      = [(jsParseIntHex (jsSlice hex 1 3)).map (fun v => (v : ℚ) / 255),
         (jsParseIntHex (jsSlice hex 3 5)).map (fun v => (v : ℚ) / 255),
         (jsParseIntHex (jsSlice hex 5 7)).map (fun v => (v : ℚ) / 255),
         if hex.length = 9 then
           (jsParseIntHex (jsSlice hex 7 9)).map (fun v => (v : ℚ) / 255)
         else some 1] := by
    simp [setBackgroundColor, hne]
  refine ⟨by rw [hbg]; rfl, ?_, rfl⟩
  rw [hbg]
  rcases hnan with h | h | h
  · exact ⟨(jsParseIntHex (jsSlice hex 1 3)).map (fun v => (v : ℚ) / 255),
      by simp, by simp [h]⟩
  · exact ⟨(jsParseIntHex (jsSlice hex 3 5)).map (fun v => (v : ℚ) / 255),
      by simp, by simp [h]⟩
  · exact ⟨(jsParseIntHex (jsSlice hex 5 7)).map (fun v => (v : ℚ) / 255),
      by simp, by simp [h]⟩

/-- Witness for C9 at the too-short string `"#123"` (third slice
empty, so the blue component is NaN). -/
theorem c9_witness :
    ∃ c ∈ (setBackgroundColor ⟨[]⟩ ("#123")).bgColor, c = none :=
  (c9_nan_color ⟨[]⟩ ("#123") (by decide) (Or.inr (Or.inr (by decide)))).2.1

/-! ### Lemmas about the submission phase -/

theorem mem_subTrace_exporting (total : ℕ) :
    ∀ (slots : ℕ) (qs : List QItem) (q : QItem), q ∈ qs →
      OEv.status q.aid ItemStatus.exporting ∈ subTrace total slots qs := by
  intro slots qs
  induction qs generalizing slots with
  | nil => intro q hq; simp at hq
  | cons a rest ih =>
    intro q hq
    rcases List.mem_cons.mp hq with h | h
    · subst h; simp [subTrace]
    · have hmem := ih (slots - 1) q h
      simp [subTrace, hmem]

theorem submitPhase_spec (total : ℕ) (qs : List QItem) :
    ∀ (s : MState) (evs : List OEv),
      (∀ q ∈ qs, abortedAt q.task.cancelAt 0 = false) →
      s.running.length ≤ s.maxConcurrent →
      (s.queue = [] ∨ s.maxConcurrent ≤ s.running.length) →
      (submitPhase total qs s evs).2
          = evs ++ subTrace total (s.maxConcurrent - s.running.length) qs ∧
      (submitPhase total qs s evs).1.running.length
          = s.running.length + min qs.length (s.maxConcurrent - s.running.length) ∧
      (submitPhase total qs s evs).1.queue.length
          = s.queue.length + (qs.length - (s.maxConcurrent - s.running.length)) := by
  induction qs with
  | nil => intro s evs _ _ _; simp [submitPhase, subTrace]
  | cons q rest ih =>
    intro s evs hna hle hinv
    have hq : abortedAt q.task.cancelAt 0 = false := hna q (by simp)
    have hnarest : ∀ p ∈ rest, abortedAt p.task.cancelAt 0 = false :=
      fun p hp => hna p (by simp [hp])
    by_cases hfree : s.running.length < s.maxConcurrent
    · have hqe : s.queue = [] := by
        rcases hinv with h | h
        · exact h
        · omega
      have hstep : exportTask s q
          = { s with queue := [], running := s.running ++ [q],
                     constructed := s.constructed + 1 } :=
        exportTask_admit s q hqe hfree hq
      have hadm : ((exportTask s q).running.drop s.running.length).map QItem.jid = [q.jid] := by
        rw [hstep]
        simp [List.drop_left]
      have hs2 := ih { s with queue := [], running := s.running ++ [q],
                              constructed := s.constructed + 1 }
        (evs ++ [OEv.progress 1 total, OEv.status q.aid ItemStatus.exporting] ++
          [OEv.activated q.jid])
        hnarest (by simp; omega) (Or.inl rfl)
      simp only [List.length_append, List.length_cons, List.length_nil, Nat.add_zero] at hs2
      have hunfold : submitPhase total (q :: rest) s evs
          = submitPhase total rest
              { s with queue := [], running := s.running ++ [q],
                       constructed := s.constructed + 1 }
              (evs ++ [OEv.progress 1 total, OEv.status q.aid ItemStatus.exporting] ++
                [OEv.activated q.jid]) := by
        simp only [submitPhase]
        rw [hadm, hstep]
        simp
      rw [hunfold]
      have hslots : 0 < s.maxConcurrent - s.running.length := by omega
      have harith : s.maxConcurrent - (s.running.length + 1)
          = s.maxConcurrent - s.running.length - 1 := by omega
      refine ⟨?_, ?_, ?_⟩
      · rw [hs2.1]
        simp only [subTrace, harith]
        rw [if_pos hslots]
        simp
      · rw [hs2.2.1]
        simp only [List.length_cons]
        omega
      · rw [hs2.2.2]
        rw [hqe]
        simp only [List.length_nil, List.length_cons]
        omega
    · have hcap : s.maxConcurrent ≤ s.running.length := by omega
      have hstep : exportTask s q = { s with queue := s.queue ++ [q] } :=
        exportTask_at_cap s q hcap
      have hadm : ((exportTask s q).running.drop s.running.length).map QItem.jid = [] := by
        rw [hstep]
        simp [List.drop_length]
      have hs2 := ih { s with queue := s.queue ++ [q] }
        (evs ++ [OEv.progress 1 total, OEv.status q.aid ItemStatus.exporting])
        hnarest hle (Or.inr hcap)
      simp only [List.length_append, List.length_cons, List.length_nil, Nat.add_zero] at hs2
      have hunfold : submitPhase total (q :: rest) s evs
          = submitPhase total rest { s with queue := s.queue ++ [q] }
              (evs ++ [OEv.progress 1 total, OEv.status q.aid ItemStatus.exporting]) := by
        simp only [submitPhase]
        rw [hadm, hstep]
        simp
      rw [hunfold]
      have hz : s.maxConcurrent - s.running.length = 0 := by omega
      refine ⟨?_, ?_, ?_⟩
      · rw [hs2.1]
        simp only [subTrace, hz]
        simp
      · rw [hs2.2.1]
        simp only [List.length_cons]
        omega
      · rw [hs2.2.2]
        simp only [List.length_append, List.length_cons, List.length_nil]
        omega

/-- C10: for a non-cancelled batch of more than `maxConcurrent = 2`
jobs submitted to a fresh manager, the submission phase emits, for each
job in order, its start progress event and its asset's `'exporting'`
status strictly before that job's admission (renderer construction),
admitting only while slots remain; at the end of the phase every
originating asset has been marked `'exporting'` and every job's start
event has fired, while `N - 2` jobs are still waiting in the queue. -/
theorem c10_submission_order (qs : List QItem)
    (hna : ∀ q ∈ qs, abortedAt q.task.cancelAt 0 = false)
    (hlen : 2 < qs.length) :
    (submitPhase qs.length qs initManager []).2 = subTrace qs.length 2 qs ∧
    (∀ q ∈ qs, OEv.status q.aid ItemStatus.exporting
      ∈ (submitPhase qs.length qs initManager []).2) ∧
    (submitPhase qs.length qs initManager []).1.running.length = 2 ∧
    (submitPhase qs.length qs initManager []).1.queue.length = qs.length - 2 := by
  have hspec := submitPhase_spec qs.length qs initManager [] hna
    (by simp [initManager]) (Or.inl rfl)
  have htr : (submitPhase qs.length qs initManager []).2 = subTrace qs.length 2 qs := by
    have := hspec.1
    simpa [initManager] using this
  refine ⟨htr, ?_, ?_, ?_⟩
  · intro q hq
    rw [htr]
    exact mem_subTrace_exporting qs.length 2 qs q hq
  · rw [hspec.2.1]
    simp only [initManager, List.length_nil]
    omega
  · rw [hspec.2.2]
    simp only [initManager, List.length_nil]
    omega

/-- Witness for C10 at a concrete 3-job batch. -/
theorem c10_witness :
    (submitPhase 3
        [sampleItem 5 ExportFormat.pngSequence none,
         sampleItem 6 ExportFormat.pngSequence none,
         sampleItem 7 ExportFormat.pngSequence none] initManager []).1.queue.length = 1 :=
  (c10_submission_order
      [sampleItem 5 ExportFormat.pngSequence none,
       sampleItem 6 ExportFormat.pngSequence none,
       sampleItem 7 ExportFormat.pngSequence none]
      (by decide) (by decide)).2.2.2

end SpineToVideoModel
